import Mathlib

/-!
Verification of the whoop-sdk authentication core (`whoop_sdk/auth.py`).

The Python module is shallowly embedded: Python dicts become association
lists with the dict's first-match lookup and overwrite-in-place update,
values of parsed JSON become an inductive `JVal`, network responses are
explicit inputs, and stateful methods become pure functions returning the
result, the successor state, and a trace of the HTTP requests issued.
-/

namespace WhoopSdk

/-- A JSON value as stored in a TokenSet / ClientCredentials field
(string, integer, boolean or null — the primitive field types the
token endpoint and the settings file use). -/
inductive JVal where
  | jstr (s : String)
  | jint (n : Int)
  | jbool (b : Bool)
  | jnull
deriving DecidableEq, Repr

/-- A Python dict with string keys, as an insertion-ordered association list. -/
abbrev Dict := List (String × JVal)

/-- `d.get(k)` / `d[k]`: the value at the first (unique, in a real dict)
occurrence of the key. -/
def dlookup : Dict → String → Option JVal
  | [], _ => none
  | (k', v') :: rest, k => if k' = k then some v' else dlookup rest k

/-- `d[k] = v`: overwrite in place if the key exists, else append. -/
def dinsert : Dict → String → JVal → Dict
  | [], k, v => [(k, v)]
  | (k', v') :: rest, k, v =>
      if k' = k then (k, v) :: rest else (k', v') :: dinsert rest k v

/-- `d.update(new)`: assign every key of `new` into `d`, in order. -/
def dupdate (d new : Dict) : Dict :=
  new.foldl (fun a kv => dinsert a kv.1 kv.2) d

/-- The keys of a dict produced by `json.load` / `resp.json()` are distinct. -/
def dNodupKeys (d : Dict) : Prop := (d.map Prod.fst).Nodup

instance (d : Dict) : Decidable (dNodupKeys d) := by
  unfold dNodupKeys; infer_instance

/-- Python truthiness of a JSON value: `""`, `0`, `False`, `None` are falsy. -/
def jtruthy : JVal → Bool
  | .jstr s => decide (s ≠ "")
  | .jint n => decide (n ≠ 0)
  | .jbool b => b
  | .jnull => false

/-- A lexical token of the JSON text that `json.dump` writes and
`json.load` reads. String tokens carry the decoded string (escaping and
unescaping of characters inside a JSON string literal is the lexer's job,
modelled as exact). -/
inductive JTok where
  | lbrace
  | rbrace
  | colon
  | comma
  | tstr (s : String)
  | tint (n : Int)
  | tbool (b : Bool)
  | tnull
deriving DecidableEq, Repr

/-- The token `json.dump` emits for one primitive value. -/
def valTok : JVal → JTok
  | .jstr s => .tstr s
  | .jint n => .tint n
  | .jbool b => .tbool b
  | .jnull => .tnull

/-- The `"key": value, …` body `json.dump` emits for a dict's entries. -/
def serializeEntries : Dict → List JTok
  | [] => []
  | [(k, v)] => [.tstr k, .colon, valTok v]
  | (k, v) :: rest => .tstr k :: .colon :: valTok v :: .comma :: serializeEntries rest

/-- The token stream `json.dump(d)` writes for a flat object `d`. -/
def serializeObj (d : Dict) : List JTok :=
  JTok.lbrace :: serializeEntries d ++ [JTok.rbrace]

/-- `AuthManager.TOKEN_URL`. -/
def TOKEN_URL : String := "https://api.prod.whoop.com/oauth/oauth2/token"

/-- `AuthManager.AUTH_URL`. -/
def AUTH_URL : String := "https://api.prod.whoop.com/oauth/oauth2/auth"

/-- An HTTP POST to the token endpoint, as `refresh_access_token` builds it:
the form fields of `data` (with `grant_type="refresh_token"` implicit in the
constructor site). -/
structure Request where
  url : String
  grant_type : String
  refresh_token : JVal
  client_id : String
  client_secret : String
deriving DecidableEq, Repr

/-- The token endpoint's answer: HTTP status, the parsed JSON body
(`resp.json()`), and the raw body text carried by `requests` errors. -/
structure HttpResponse where
  status : Nat
  body : Dict
  rawBody : String
deriving DecidableEq, Repr

/-- `resp.raise_for_status()` raises exactly for 4xx and 5xx statuses. -/
def isErrorStatus (s : Nat) : Bool := 400 ≤ s ∧ s < 600

/-- The mutable state of an `AuthManager` after `__init__`: the resolved
client credentials, the in-memory TokenSet `self.tokens`, and the contents
of the token file at `CONFIG_PATH` (`none` = file absent; tokenized JSON
text otherwise — see `serializeObj`). -/
structure AuthState where
  client_id : String
  client_secret : String
  redirect_uri : String
  tokens : Dict
  disk : Option (List JTok)
deriving DecidableEq, Repr

/-- The exceptions the token lifecycle can raise, named by the spec's
taxonomy (§7): `notAuthenticated` is the `RuntimeError("No tokens found…")`
of `ensure_access_token`; `refreshHttp` is the `requests.HTTPError` from
`resp.raise_for_status()` in `refresh_access_token`, carrying the upstream
status and body; `keyError` is a Python `KeyError` on dict indexing. -/
inductive AuthError where
  | notAuthenticated
  | refreshHttp (status : Nat) (body : String)
  | keyError (k : String)
deriving DecidableEq, Repr

deriving instance DecidableEq for Except

/-- Result of a call into the token lifecycle: the returned value or the
exception, the state after the call, and the HTTP requests issued. -/
structure Outcome where
  result : Except AuthError JVal
  state : AuthState
  trace : List Request
deriving DecidableEq, Repr

/-- `json.load` reading one primitive value token. -/
def parseVal : JTok → Option JVal
  | .tstr s => some (.jstr s)
  | .tint n => some (.jint n)
  | .tbool b => some (.jbool b)
  | .tnull => some .jnull
  | _ => none

/-- `json.load` reading the non-empty `"key": value, …` body of an object,
up to and including the closing brace. -/
def parseEntries : List JTok → Option Dict
  | .tstr k :: .colon :: t :: rest =>
      match parseVal t, rest with
      | some v, [.rbrace] => some [(k, v)]
      | some v, .comma :: rest2 => (parseEntries rest2).map (fun d => (k, v) :: d)
      | _, _ => none
  | _ => none

/-- `json.load` reading a flat JSON object from a token stream. -/
def parseObj : List JTok → Option Dict
  | [.lbrace, .rbrace] => some []
  | .lbrace :: rest => parseEntries rest
  | _ => none

/-- `AuthManager._save_tokens` / `_save_settings`: the file contents after
`json.dump(d, f)` (directory creation and the `self.tokens` rebind are
handled at the call sites that use this). -/
def saveFile (d : Dict) : Option (List JTok) :=
  some (serializeObj d)

/-- `AuthManager._load_tokens` / `_load_settings`: `{}` when the file is
absent, else `json.load` of its contents (`none` = the load raises on a
file that is not a JSON object). -/
def loadFile : Option (List JTok) → Option Dict
  | none => some []
  | some ts => parseObj ts

/-- `AuthManager.refresh_access_token(self)`, given the token endpoint's
response to the refresh POST. Mirrors the source line by line: build
`data` (indexing `self.tokens["refresh_token"]` — a KeyError here happens
before any request is sent), POST, `raise_for_status`, merge
`self.tokens.update(new_tokens)`, persist via `_save_tokens`, then return
`self.tokens["access_token"]` (a KeyError here happens after the save). -/
def refresh_access_token (st : AuthState) (resp : HttpResponse) : Outcome :=
  match dlookup st.tokens "refresh_token" with
  | none => ⟨.error (.keyError "refresh_token"), st, []⟩
  | some rt =>
      let req : Request := ⟨TOKEN_URL, "refresh_token", rt, st.client_id, st.client_secret⟩
      if isErrorStatus resp.status then
        ⟨.error (.refreshHttp resp.status resp.rawBody), st, [req]⟩
      else
        let merged := dupdate st.tokens resp.body
        let st' := { st with tokens := merged, disk := saveFile merged }
        match dlookup merged "access_token" with
        | none => ⟨.error (.keyError "access_token"), st', [req]⟩
        | some av => ⟨.ok av, st', [req]⟩

/-- `AuthManager.ensure_access_token(self)`: raise if `self.tokens` is
empty, else `self.tokens.get("access_token") or self.refresh_access_token()`
(Python `or`: the stored value when truthy, otherwise the refresh result).
`resp` is the endpoint's answer should a refresh request be made. -/
def ensure_access_token (st : AuthState) (resp : HttpResponse) : Outcome :=
  if st.tokens.isEmpty then
    ⟨.error .notAuthenticated, st, []⟩
  else
    match dlookup st.tokens "access_token" with
    | some v => if jtruthy v then ⟨.ok v, st, []⟩ else refresh_access_token st resp
    | none => refresh_access_token st resp

/-! Dict lemmas. -/

theorem dlookup_dinsert_self (d : Dict) (k : String) (v : JVal) :
    dlookup (dinsert d k v) k = some v := by
  induction d with
  | nil => simp [dinsert, dlookup]
  | cons hd tl ih =>
      obtain ⟨k', v'⟩ := hd
      by_cases h : k' = k <;> simp [dinsert, dlookup, h, ih]

theorem dlookup_dinsert_ne (d : Dict) (k' k : String) (v : JVal) (h : k' ≠ k) :
    dlookup (dinsert d k' v) k = dlookup d k := by
  induction d with
  | nil => simp [dinsert, dlookup, h]
  | cons hd tl ih =>
      obtain ⟨k₀, v₀⟩ := hd
      by_cases h₀ : k₀ = k'
      · subst h₀; simp [dinsert, dlookup, h]
      · simp [dinsert, dlookup, h₀, ih]

theorem dupdate_cons (d : Dict) (k : String) (v : JVal) (rest : Dict) :
    dupdate d ((k, v) :: rest) = dupdate (dinsert d k v) rest := rfl

theorem dlookup_dupdate_of_none (new : Dict) (k : String)
    (h : dlookup new k = none) :
    ∀ d : Dict, dlookup (dupdate d new) k = dlookup d k := by
  induction new with
  | nil => intro d; rfl
  | cons hd rest ih =>
      obtain ⟨k', v'⟩ := hd
      intro d
      by_cases hk : k' = k
      · subst hk; simp [dlookup] at h
      · have h' : dlookup rest k = none := by simpa [dlookup, hk] using h
        rw [dupdate_cons, ih h', dlookup_dinsert_ne d k' k v' hk]

theorem dlookup_eq_none_of_not_mem (d : Dict) (k : String)
    (h : k ∉ d.map Prod.fst) : dlookup d k = none := by
  induction d with
  | nil => rfl
  | cons hd rest ih =>
      obtain ⟨k', v'⟩ := hd
      simp only [List.map_cons, List.mem_cons] at h
      push_neg at h
      have hne : k' ≠ k := fun hk => h.1 hk.symm
      simp [dlookup, hne, ih h.2]

theorem dlookup_dupdate_of_some (new : Dict) (k : String) (v : JVal)
    (hnd : dNodupKeys new) (h : dlookup new k = some v) :
    ∀ d : Dict, dlookup (dupdate d new) k = some v := by
  induction new with
  | nil => simp [dlookup] at h
  | cons hd rest ih =>
      obtain ⟨k', v'⟩ := hd
      have hnd' : (k' ∉ rest.map Prod.fst) ∧ dNodupKeys rest := by
        simpa [dNodupKeys, List.nodup_cons] using hnd
      intro d
      by_cases hk : k' = k
      · subst hk
        have hv : v' = v := by simpa [dlookup] using h
        subst hv
        have hrest : dlookup rest k' = none :=
          dlookup_eq_none_of_not_mem rest k' hnd'.1
        rw [dupdate_cons, dlookup_dupdate_of_none rest k' hrest,
          dlookup_dinsert_self]
      · have h' : dlookup rest k = some v := by simpa [dlookup, hk] using h
        rw [dupdate_cons]
        exact ih hnd'.2 h' (dinsert d k' v')

theorem isEmpty_false_of_dlookup (d : Dict) (k : String) (v : JVal)
    (h : dlookup d k = some v) : d.isEmpty = false := by
  cases d with
  | nil => simp [dlookup] at h
  | cons hd tl => rfl

/-- On a success status with a usable refresh token, `refresh_access_token`
merges the response body into the TokenSet and writes the merged set to the
token file. -/
theorem refresh_success_state (st : AuthState) (resp : HttpResponse) (rt : JVal)
    (hrt : dlookup st.tokens "refresh_token" = some rt)
    (hst : isErrorStatus resp.status = false) :
    (refresh_access_token st resp).state =
      { st with tokens := dupdate st.tokens resp.body,
                disk := saveFile (dupdate st.tokens resp.body) } := by
  unfold refresh_access_token
  rw [hrt]
  simp only [hst, Bool.false_eq_true, if_false]
  cases h : dlookup (dupdate st.tokens resp.body) "access_token" <;> simp [h]

/-- On an error status with a usable refresh token, `refresh_access_token`
raises the wrapped HTTP error after exactly one request, touching nothing. -/
theorem refresh_error_outcome (st : AuthState) (resp : HttpResponse)
    (rt : JVal)
    (hrt : dlookup st.tokens "refresh_token" = some rt)
    (hstatus : isErrorStatus resp.status = true) :
    refresh_access_token st resp =
      ⟨.error (.refreshHttp resp.status resp.rawBody), st,
       [⟨TOKEN_URL, "refresh_token", rt, st.client_id, st.client_secret⟩]⟩ := by
  unfold refresh_access_token
  rw [hrt]
  simp [hstatus]

/-- On a success status whose merged TokenSet carries an access token,
`refresh_access_token` returns it after exactly one request, having merged
and persisted. -/
theorem refresh_success_outcome (st : AuthState) (resp : HttpResponse)
    (rt av : JVal)
    (hrt : dlookup st.tokens "refresh_token" = some rt)
    (hstatus : isErrorStatus resp.status = false)
    (hmerged : dlookup (dupdate st.tokens resp.body) "access_token" = some av) :
    refresh_access_token st resp =
      ⟨.ok av,
       { st with tokens := dupdate st.tokens resp.body,
                 disk := saveFile (dupdate st.tokens resp.body) },
       [⟨TOKEN_URL, "refresh_token", rt, st.client_id, st.client_secret⟩]⟩ := by
  unfold refresh_access_token
  rw [hrt]
  simp only [hstatus, Bool.false_eq_true, if_false]
  simp [hmerged]

/-- With the TokenSet non-empty and its access_token value falsy or
absent, `ensure_access_token` takes the refresh path. -/
theorem ensure_takes_refresh_path (st : AuthState) (resp : HttpResponse)
    (hne : st.tokens.isEmpty = false)
    (hacc : dlookup st.tokens "access_token" = none
        ∨ dlookup st.tokens "access_token" = some (.jstr "")) :
    ensure_access_token st resp = refresh_access_token st resp := by
  unfold ensure_access_token
  rw [hne]
  rcases hacc with ha | ha <;> simp [ha, jtruthy]

/-- C1: on a manager whose loaded TokenSet contains a non-empty
access_token value, `ensure_access_token` returns exactly that stored
value, leaves the state unchanged, and issues no HTTP request. -/
theorem c1_ensure_returns_stored_access_token (st : AuthState)
    (resp : HttpResponse) (s : String)
    (hs : dlookup st.tokens "access_token" = some (.jstr s)) (hne : s ≠ "") :
    ensure_access_token st resp = ⟨.ok (.jstr s), st, []⟩ := by
  unfold ensure_access_token
  rw [isEmpty_false_of_dlookup st.tokens _ _ hs, hs]
  simp [jtruthy, hne]

theorem c1_witness :
    dlookup [("access_token", JVal.jstr "tok")] "access_token"
        = some (.jstr "tok")
    ∧ ("tok" : String) ≠ ""
    ∧ ensure_access_token
        ⟨"id", "sec", "uri", [("access_token", .jstr "tok")], none⟩
        ⟨200, [], ""⟩
      = ⟨.ok (.jstr "tok"),
         ⟨"id", "sec", "uri", [("access_token", .jstr "tok")], none⟩, []⟩ :=
  ⟨by decide, by decide,
   c1_ensure_returns_stored_access_token _ _ "tok" (by decide) (by decide)⟩

/-- C2: on a manager whose TokenSet is empty (the token file held nothing
at load), `ensure_access_token` raises the not-authenticated error and
issues no HTTP request. -/
theorem c2_ensure_empty_tokens_not_authenticated (st : AuthState)
    (resp : HttpResponse) (h : st.tokens = []) :
    ensure_access_token st resp = ⟨.error .notAuthenticated, st, []⟩ := by
  simp [ensure_access_token, h]

theorem c2_witness :
    (⟨"id", "sec", "uri", [], none⟩ : AuthState).tokens = []
    ∧ ensure_access_token (⟨"id", "sec", "uri", [], none⟩ : AuthState)
        ⟨200, [], ""⟩
      = ⟨.error .notAuthenticated, ⟨"id", "sec", "uri", [], none⟩, []⟩ :=
  ⟨rfl, c2_ensure_empty_tokens_not_authenticated _ _ rfl⟩

/-- C3: on a manager whose TokenSet has no access_token but has a
refresh_token, `ensure_access_token` issues exactly one request to the
token endpoint; on a success response it persists the merged TokenSet to
the token file and returns the newly issued access token. -/
theorem c3_ensure_refresh_path (st : AuthState) (resp : HttpResponse)
    (rt av : JVal)
    (hacc : dlookup st.tokens "access_token" = none)
    (hrt : dlookup st.tokens "refresh_token" = some rt)
    (hstatus : isErrorStatus resp.status = false)
    (hnd : dNodupKeys resp.body)
    (hav : dlookup resp.body "access_token" = some av) :
    ensure_access_token st resp =
      ⟨.ok av,
       { st with tokens := dupdate st.tokens resp.body,
                 disk := saveFile (dupdate st.tokens resp.body) },
       [⟨TOKEN_URL, "refresh_token", rt, st.client_id, st.client_secret⟩]⟩ := by
  rw [ensure_takes_refresh_path st resp
    (isEmpty_false_of_dlookup st.tokens _ _ hrt) (Or.inl hacc)]
  exact refresh_success_outcome st resp rt av hrt hstatus
    (dlookup_dupdate_of_some resp.body _ av hnd hav st.tokens)

theorem c3_witness :
    dlookup [("refresh_token", JVal.jstr "r1")] "access_token" = none
    ∧ dlookup [("refresh_token", JVal.jstr "r1")] "refresh_token"
        = some (.jstr "r1")
    ∧ isErrorStatus 200 = false
    ∧ dNodupKeys [("access_token", JVal.jstr "a2")]
    ∧ dlookup [("access_token", JVal.jstr "a2")] "access_token"
        = some (.jstr "a2")
    ∧ ensure_access_token
        ⟨"id", "sec", "uri", [("refresh_token", .jstr "r1")], none⟩
        ⟨200, [("access_token", .jstr "a2")], ""⟩
      = ⟨.ok (.jstr "a2"),
         { client_id := "id", client_secret := "sec", redirect_uri := "uri",
           tokens := dupdate [("refresh_token", .jstr "r1")]
             [("access_token", .jstr "a2")],
           disk := saveFile (dupdate [("refresh_token", .jstr "r1")]
             [("access_token", .jstr "a2")]) },
         [⟨TOKEN_URL, "refresh_token", .jstr "r1", "id", "sec"⟩]⟩ :=
  ⟨by decide, by decide, by decide, by decide, by decide,
   c3_ensure_refresh_path _ _ (.jstr "r1") (.jstr "a2")
     (by decide) (by decide) (by decide) (by decide) (by decide)⟩

/-- C4: a successful refresh leaves every key of the stored TokenSet that
is absent from the response body unchanged; in particular, when the
response omits refresh_token, the previously stored refresh_token is
retained. -/
theorem c4_refresh_merge_retains_absent_keys (st : AuthState)
    (resp : HttpResponse) (rt : JVal)
    (hrt : dlookup st.tokens "refresh_token" = some rt)
    (hstatus : isErrorStatus resp.status = false) :
    (∀ k, dlookup resp.body k = none →
        dlookup (refresh_access_token st resp).state.tokens k
          = dlookup st.tokens k)
    ∧ (dlookup resp.body "refresh_token" = none →
        dlookup (refresh_access_token st resp).state.tokens "refresh_token"
          = some rt) := by
  have hstate := refresh_success_state st resp rt hrt hstatus
  constructor
  · intro k hk
    rw [hstate]
    exact dlookup_dupdate_of_none resp.body k hk st.tokens
  · intro hk
    rw [hstate]
    have := dlookup_dupdate_of_none resp.body "refresh_token" hk st.tokens
    exact this.trans hrt

theorem c4_witness :
    dlookup [("refresh_token", JVal.jstr "r1"), ("scope", .jstr "s")]
        "refresh_token" = some (.jstr "r1")
    ∧ isErrorStatus 200 = false
    ∧ dlookup [("access_token", JVal.jstr "a2")] "refresh_token" = none
    ∧ dlookup (refresh_access_token
        ⟨"id", "sec", "uri",
         [("refresh_token", .jstr "r1"), ("scope", .jstr "s")], none⟩
        ⟨200, [("access_token", .jstr "a2")], ""⟩).state.tokens
        "refresh_token" = some (.jstr "r1") :=
  ⟨by decide, by decide, by decide,
   (c4_refresh_merge_retains_absent_keys _ _ (.jstr "r1")
      (by decide) (by decide)).2 (by decide)⟩

/-- C5: an error-status response from the token endpoint makes
`refresh_access_token` raise the refresh error carrying the upstream
status and body, with the in-memory TokenSet and the token file both
left exactly as they were. -/
theorem c5_refresh_error_no_write (st : AuthState) (resp : HttpResponse)
    (rt : JVal)
    (hrt : dlookup st.tokens "refresh_token" = some rt)
    (hstatus : isErrorStatus resp.status = true) :
    refresh_access_token st resp =
      ⟨.error (.refreshHttp resp.status resp.rawBody), st,
       [⟨TOKEN_URL, "refresh_token", rt, st.client_id, st.client_secret⟩]⟩ :=
  refresh_error_outcome st resp rt hrt hstatus

theorem c5_witness :
    dlookup [("refresh_token", JVal.jstr "r1")] "refresh_token"
        = some (.jstr "r1")
    ∧ isErrorStatus 401 = true
    ∧ refresh_access_token
        ⟨"id", "sec", "uri", [("refresh_token", .jstr "r1")], none⟩
        ⟨401, [], "invalid_grant"⟩
      = ⟨.error (.refreshHttp 401 "invalid_grant"),
         ⟨"id", "sec", "uri", [("refresh_token", .jstr "r1")], none⟩,
         [⟨TOKEN_URL, "refresh_token", .jstr "r1", "id", "sec"⟩]⟩ :=
  ⟨by decide, by decide,
   c5_refresh_error_no_write _ _ (.jstr "r1") (by decide) (by decide)⟩

/-! Credential resolution (`AuthManager.__init__`). -/

/-- Truthiness of `None`-or-a-value, as Python's `or` and `not` test it. -/
def truthyOpt (o : Option JVal) : Bool := (o.map jtruthy).getD false

/-- Python's `a or b`: `a` when truthy, else `b`. -/
def pyOr (a b : Option JVal) : Option JVal := if truthyOpt a then a else b

/-- The whitespace `str.strip()` removes. -/
def isPyWhitespace (c : Char) : Bool :=
  c = ' ' || c = '\t' || c = '\n' || c = '\r' || c = '\x0b' || c = '\x0c'

/-- Python's `s.strip()`. -/
def pyStrip (s : String) : String :=
  ⟨((s.toList.dropWhile isPyWhitespace).reverse.dropWhile isPyWhitespace).reverse⟩

/-- `os.getenv("WHOOP_CLIENT_ID") or self.settings.get("client_id")`. -/
def resolveClientId (envId : Option String) (settings : Dict) : Option JVal :=
  pyOr (envId.map .jstr) (dlookup settings "client_id")

/-- `os.getenv("WHOOP_CLIENT_SECRET") or self.settings.get("client_secret")`. -/
def resolveClientSecret (envSecret : Option String) (settings : Dict) :
    Option JVal :=
  pyOr (envSecret.map .jstr) (dlookup settings "client_secret")

/-- `self.settings.get("redirect_uri") or "https://www.google.com"`. -/
def resolveRedirectUri (settings : Dict) : Option JVal :=
  pyOr (dlookup settings "redirect_uri") (some (.jstr "https://www.google.com"))

/-- What `input()` returns at each of the three first-run prompts. -/
structure Prompts where
  idInput : String
  secretInput : String
  uriInput : String

/-- The credential fields after `__init__`, plus what (if anything) was
written to the settings file. -/
structure InitOutcome where
  client_id : Option JVal
  client_secret : Option JVal
  redirect_uri : Option JVal
  savedSettings : Option Dict

/-- The credential-resolution part of `AuthManager.__init__`: environment,
then settings file, then — when `not self.client_id or not
self.client_secret` — interactive prompts whose stripped answers (the
redirect URI defaulting when blank) are all persisted via
`_save_settings`. -/
def initCredentials (envId envSecret : Option String) (settings : Dict)
    (p : Prompts) : InitOutcome :=
  let cid := resolveClientId envId settings
  let csec := resolveClientSecret envSecret settings
  let ruri := resolveRedirectUri settings
  if !truthyOpt cid || !truthyOpt csec then
    let cid' : JVal := .jstr (pyStrip p.idInput)
    let csec' : JVal := .jstr (pyStrip p.secretInput)
    let ruri' : JVal := .jstr
      (if pyStrip p.uriInput = "" then "https://www.google.com"
       else pyStrip p.uriInput)
    ⟨some cid', some csec', some ruri',
     some [("client_id", cid'), ("client_secret", csec'),
           ("redirect_uri", ruri')]⟩
  else
    ⟨cid, csec, ruri, none⟩

/-- C6 counterexample: with the client-id environment variable present but
set to the empty string and a client_id in the settings file, resolution
uses the settings value, not the environment value. -/
theorem c6_counterexample :
    resolveClientId (some "") [("client_id", .jstr "x")] = some (.jstr "x")
    ∧ some (JVal.jstr "x") ≠ some (JVal.jstr "") := by
  constructor
  · decide
  · decide

/-- C6 (amended): the environment value is used whenever the environment
variable holds a non-empty string; the settings value is used when the
environment variable is absent or holds the empty string. -/
theorem c6_env_precedence (e : String) (settings : Dict) (he : e ≠ "") :
    resolveClientId (some e) settings = some (.jstr e)
    ∧ resolveClientSecret (some e) settings = some (.jstr e)
    ∧ resolveClientId none settings = dlookup settings "client_id"
    ∧ resolveClientId (some "") settings = dlookup settings "client_id"
    ∧ resolveClientSecret none settings = dlookup settings "client_secret"
    ∧ resolveClientSecret (some "") settings = dlookup settings "client_secret" := by
  refine ⟨?_, ?_, ?_, ?_, ?_, ?_⟩ <;>
    simp [resolveClientId, resolveClientSecret, pyOr, truthyOpt, jtruthy, he]

theorem c6_witness :
    ("abc" : String) ≠ ""
    ∧ resolveClientId (some "abc") [("client_id", .jstr "x")]
        = some (.jstr "abc") :=
  ⟨by decide,
   (c6_env_precedence "abc" [("client_id", .jstr "x")] (by decide)).1⟩

/-- C8: the settings file is written exactly when the client id or client
secret was not resolvable (truthy) from the environment or the existing
settings; and what is written is the full final credential triple. -/
theorem c8_settings_write_condition (envId envSecret : Option String)
    (settings : Dict) (p : Prompts) :
    (initCredentials envId envSecret settings p).savedSettings =
      if truthyOpt (resolveClientId envId settings)
          && truthyOpt (resolveClientSecret envSecret settings) then none
      else
        some [("client_id",
               (initCredentials envId envSecret settings p).client_id.getD .jnull),
              ("client_secret",
               (initCredentials envId envSecret settings p).client_secret.getD .jnull),
              ("redirect_uri",
               (initCredentials envId envSecret settings p).redirect_uri.getD .jnull)] := by
  cases ha : truthyOpt (resolveClientId envId settings) <;>
    cases hb : truthyOpt (resolveClientSecret envSecret settings) <;>
      simp [initCredentials, ha, hb]

/-! Persistence round trip. -/

theorem parseVal_valTok (v : JVal) : parseVal (valTok v) = some v := by
  cases v <;> rfl

theorem parseEntries_serializeEntries :
    ∀ d : Dict, d ≠ [] →
      parseEntries (serializeEntries d ++ [JTok.rbrace]) = some d
  | [], h => absurd rfl h
  | [(k, v)], _ => by
      simp [serializeEntries, parseEntries, parseVal_valTok]
  | (k, v) :: (k₂, v₂) :: rest, _ => by
      have ih := parseEntries_serializeEntries ((k₂, v₂) :: rest) (by simp)
      simp [serializeEntries, parseEntries, parseVal_valTok, ih]

/-- C9: dumping a TokenSet or ClientCredentials mapping to its file and
loading it back (`_save_tokens` then `_load_tokens`, or `_save_settings`
then `_load_settings`) yields the same mapping, every field intact. -/
theorem c9_save_load_roundtrip (d : Dict) :
    loadFile (saveFile d) = some d := by
  cases d with
  | nil => rfl
  | cons hd tl =>
      obtain ⟨k, v⟩ := hd
      cases tl with
      | nil =>
          simp [loadFile, saveFile, serializeObj, parseObj, serializeEntries,
            parseEntries, parseVal_valTok]
      | cons hd₂ tl₂ =>
          obtain ⟨k₂, v₂⟩ := hd₂
          have ih := parseEntries_serializeEntries ((k₂, v₂) :: tl₂) (by simp)
          simp [loadFile, saveFile, serializeObj, parseObj, serializeEntries,
            parseEntries, parseVal_valTok, ih]

/-! Truthiness of the access token value (C10). -/

/-- Removal of a key from a dict (used only to state "as if the key were
absent": the hypothetical TokenSet with the access_token entry gone). -/
def derase : Dict → String → Dict
  | [], _ => []
  | (k', v') :: rest, k => if k' = k then rest else (k', v') :: derase rest k

theorem dlookup_derase_ne (d : Dict) (k' k : String) (h : k' ≠ k) :
    dlookup (derase d k') k = dlookup d k := by
  induction d with
  | nil => rfl
  | cons hd rest ih =>
      obtain ⟨k₀, v₀⟩ := hd
      by_cases h₀ : k₀ = k'
      · subst h₀; simp [derase, dlookup, h]
      · simp [derase, dlookup, h₀, ih]

theorem dlookup_derase_self (d : Dict) (k : String) (hnd : dNodupKeys d) :
    dlookup (derase d k) k = none := by
  induction d with
  | nil => rfl
  | cons hd rest ih =>
      obtain ⟨k₀, v₀⟩ := hd
      have hnd' : (k₀ ∉ rest.map Prod.fst) ∧ dNodupKeys rest := by
        simpa [dNodupKeys, List.nodup_cons] using hnd
      by_cases h₀ : k₀ = k
      · subst h₀
        simp only [derase, if_pos rfl]
        exact dlookup_eq_none_of_not_mem rest k₀ hnd'.1
      · simp [derase, dlookup, h₀, ih hnd'.2]

/-- C10: when the access_token key is present but holds the empty string,
`ensure_access_token` takes the refresh path — presence is decided by
truthiness — with the same result and the same single request as if the
key were absent, and (the endpoint answering an error or a response
carrying a non-empty access token, per §6 of the spec) it never returns
the stored empty string. -/
theorem c10_empty_access_token_goes_through_refresh (st : AuthState)
    (resp : HttpResponse) (rt : JVal) (s : String)
    (hndt : dNodupKeys st.tokens)
    (hacc : dlookup st.tokens "access_token" = some (.jstr ""))
    (hrt : dlookup st.tokens "refresh_token" = some rt)
    (hnd : dNodupKeys resp.body)
    (hwf : isErrorStatus resp.status = true
        ∨ (dlookup resp.body "access_token" = some (.jstr s) ∧ s ≠ "")) :
    ensure_access_token st resp = refresh_access_token st resp
    ∧ (ensure_access_token st resp).result =
        (ensure_access_token
          { st with tokens := derase st.tokens "access_token" } resp).result
    ∧ (ensure_access_token st resp).trace =
        (ensure_access_token
          { st with tokens := derase st.tokens "access_token" } resp).trace
    ∧ (ensure_access_token st resp).result ≠ .ok (.jstr "") := by
  have hne : ("access_token" : String) ≠ "refresh_token" := by decide
  have h1 : ensure_access_token st resp = refresh_access_token st resp :=
    ensure_takes_refresh_path st resp
      (isEmpty_false_of_dlookup st.tokens _ _ hacc) (Or.inr hacc)
  set st' : AuthState := { st with tokens := derase st.tokens "access_token" }
    with hst
  have hrt' : dlookup st'.tokens "refresh_token" = some rt :=
    (dlookup_derase_ne st.tokens _ _ hne).trans hrt
  have hacc' : dlookup st'.tokens "access_token" = none :=
    dlookup_derase_self st.tokens _ hndt
  have h2 : ensure_access_token st' resp = refresh_access_token st' resp :=
    ensure_takes_refresh_path st' resp
      (isEmpty_false_of_dlookup st'.tokens _ _ hrt') (Or.inl hacc')
  cases hstatus : isErrorStatus resp.status with
  | true =>
      have e1 := refresh_error_outcome st resp rt hrt hstatus
      have e2 := refresh_error_outcome st' resp rt hrt' hstatus
      refine ⟨h1, ?_, ?_, ?_⟩ <;> rw [h1, e1] <;> try rw [h2, e2]
      simp
  | false =>
      obtain ⟨hav, hs⟩ :
          dlookup resp.body "access_token" = some (.jstr s) ∧ s ≠ "" := by
        rcases hwf with herr | h
        · rw [hstatus] at herr; exact absurd herr (by simp)
        · exact h
      have m1 : dlookup (dupdate st.tokens resp.body) "access_token"
          = some (.jstr s) :=
        dlookup_dupdate_of_some resp.body _ _ hnd hav st.tokens
      have m2 : dlookup (dupdate st'.tokens resp.body) "access_token"
          = some (.jstr s) :=
        dlookup_dupdate_of_some resp.body _ _ hnd hav st'.tokens
      have e1 := refresh_success_outcome st resp rt (.jstr s) hrt hstatus m1
      have e2 := refresh_success_outcome st' resp rt (.jstr s) hrt' hstatus m2
      refine ⟨h1, ?_, ?_, ?_⟩ <;> rw [h1, e1] <;> try rw [h2, e2]
      simp [hs]

theorem c10_witness :
    dNodupKeys [("access_token", JVal.jstr ""), ("refresh_token", .jstr "r1")]
    ∧ dlookup [("access_token", JVal.jstr ""), ("refresh_token", .jstr "r1")]
        "access_token" = some (.jstr "")
    ∧ dlookup [("access_token", JVal.jstr ""), ("refresh_token", .jstr "r1")]
        "refresh_token" = some (.jstr "r1")
    ∧ dNodupKeys [("access_token", JVal.jstr "a2")]
    ∧ (isErrorStatus 200 = true
        ∨ (dlookup [("access_token", JVal.jstr "a2")] "access_token"
             = some (.jstr "a2") ∧ ("a2" : String) ≠ ""))
    ∧ ensure_access_token
        ⟨"id", "sec", "uri",
         [("access_token", .jstr ""), ("refresh_token", .jstr "r1")], none⟩
        ⟨200, [("access_token", .jstr "a2")], ""⟩
      = refresh_access_token
        ⟨"id", "sec", "uri",
         [("access_token", .jstr ""), ("refresh_token", .jstr "r1")], none⟩
        ⟨200, [("access_token", .jstr "a2")], ""⟩ :=
  ⟨by decide, by decide, by decide, by decide,
   Or.inr ⟨by decide, by decide⟩,
   (c10_empty_access_token_goes_through_refresh _ _ (.jstr "r1") "a2"
      (by decide) (by decide) (by decide) (by decide)
      (Or.inr ⟨by decide, by decide⟩)).1⟩

/-! The authorization URL (`AuthManager._build_auth_url`), with
`urllib.parse.urlencode` / `quote_plus` embedded byte-for-byte, and a
decoder modelling `urllib.parse.parse_qsl` (strict where CPython is
lenient — malformed percent-escapes or invalid UTF-8, which CPython
passes through or replaces, decode to `none` here; the concrete strings
of this development contain neither). -/

/-- The characters `urllib.parse.quote` never escapes
(ASCII letters, digits, `_.-~`). -/
def isAlwaysSafe (c : Char) : Bool :=
  c.isAlpha || c.isDigit || c = '_' || c = '.' || c = '-' || c = '~'

/-- Uppercase hex digit, as `quote` emits (48 = `0`, 55 + 10 = `A`). -/
def hexUpper (n : Nat) : Char :=
  Char.ofNat (if n < 10 then n + 48 else n + 55)

/-- The UTF-8 bytes of one character. -/
def utf8Bytes (c : Char) : List Nat :=
  let n := c.toNat
  if n < 0x80 then [n]
  else if n < 0x800 then [0xC0 + n / 0x40, 0x80 + n % 0x40]
  else if n < 0x10000 then
    [0xE0 + n / 0x1000, 0x80 + n / 0x40 % 0x40, 0x80 + n % 0x40]
  else
    [0xF0 + n / 0x40000, 0x80 + n / 0x1000 % 0x40, 0x80 + n / 0x40 % 0x40,
     0x80 + n % 0x40]

/-- `%XX` for one byte. -/
def percentByte (b : Nat) : List Char := ['%', hexUpper (b / 16), hexUpper (b % 16)]

/-- `quote_plus` on one character: space to `+`, safe characters kept,
everything else percent-encoded per UTF-8 byte. -/
def quotePlusChar (c : Char) : List Char :=
  if c = ' ' then ['+']
  else if isAlwaysSafe c then [c]
  else (utf8Bytes c).flatMap percentByte

/-- `urllib.parse.quote_plus(s)` as `urlencode` calls it (empty `safe`). -/
def quote_plus (s : String) : String := ⟨s.toList.flatMap quotePlusChar⟩

/-- `urllib.parse.urlencode(params)` over string pairs in dict order. -/
def urlencode (ps : List (String × String)) : String :=
  String.intercalate "&" (ps.map fun p => quote_plus p.1 ++ "=" ++ quote_plus p.2)

/-- `AuthManager._build_auth_url`: the `params` dict in source order,
urlencoded onto the authorization endpoint. `scopes` and `state` are the
instance attributes `__init__` fixed; no network call occurs — the whole
construction is this pure expression. -/
def build_auth_url (client_id redirect_uri scopes state : String) : String :=
  AUTH_URL ++ "?" ++ urlencode
    [("client_id", client_id), ("response_type", "code"),
     ("redirect_uri", redirect_uri), ("scope", scopes), ("state", state)]

/-- Value of one hex digit (code points 48–57, 65–70, 97–102). -/
def unhexDigit (c : Char) : Option Nat :=
  let n := c.toNat
  if 48 ≤ n && n ≤ 57 then some (n - 48)
  else if 65 ≤ n && n ≤ 70 then some (n - 55)
  else if 97 ≤ n && n ≤ 102 then some (n - 87)
  else none

/-- A `Char` from a Unicode scalar value, refusing invalid code points. -/
def mkChar (n : Nat) : Option Char :=
  if Nat.isValidChar n then some (Char.ofNat n) else none

/-- A UTF-8 continuation byte. -/
def isCont (b : Nat) : Bool := 0x80 ≤ b && b < 0xC0

/-- UTF-8 decoding with fuel (one unit per decoded character; the byte
count is always enough fuel). -/
def utf8DecodeFuel : Nat → List Nat → Option (List Char)
  | _, [] => some []
  | 0, _ :: _ => none
  | fuel + 1, b :: rest =>
      if b < 0x80 then
        (utf8DecodeFuel fuel rest).bind fun tail =>
          (mkChar b).map fun c => c :: tail
      else if 0xC0 ≤ b ∧ b < 0xE0 then
        match rest with
        | b2 :: rest2 =>
            if isCont b2 then
              (utf8DecodeFuel fuel rest2).bind fun tail =>
                (mkChar ((b - 0xC0) * 0x40 + (b2 - 0x80))).map fun c => c :: tail
            else none
        | [] => none
      else if 0xE0 ≤ b ∧ b < 0xF0 then
        match rest with
        | b2 :: b3 :: rest3 =>
            if isCont b2 && isCont b3 then
              (utf8DecodeFuel fuel rest3).bind fun tail =>
                (mkChar ((b - 0xE0) * 0x1000 + (b2 - 0x80) * 0x40 + (b3 - 0x80))).map
                  fun c => c :: tail
            else none
        | _ => none
      else if 0xF0 ≤ b ∧ b < 0xF8 then
        match rest with
        | b2 :: b3 :: b4 :: rest4 =>
            if isCont b2 && isCont b3 && isCont b4 then
              (utf8DecodeFuel fuel rest4).bind fun tail =>
                (mkChar ((b - 0xF0) * 0x40000 + (b2 - 0x80) * 0x1000
                    + (b3 - 0x80) * 0x40 + (b4 - 0x80))).map
                  fun c => c :: tail
            else none
        | _ => none
      else none

/-- UTF-8 decoding of a byte list. -/
def utf8Decode (bs : List Nat) : Option (List Char) :=
  utf8DecodeFuel bs.length bs

/-- `unquote`: percent-escapes to bytes, other characters to their UTF-8
bytes (decoded back unchanged). -/
def unquoteBytes : List Char → Option (List Nat)
  | [] => some []
  | '%' :: h :: l :: rest =>
      (unhexDigit h).bind fun hi =>
        (unhexDigit l).bind fun lo =>
          (unquoteBytes rest).map fun tail => (hi * 16 + lo) :: tail
  | c :: rest =>
      (unquoteBytes rest).map fun tail => utf8Bytes c ++ tail

/-- `urllib.parse.unquote_plus`: `+` to space, then unquote. -/
def unquote_plus (s : String) : Option String :=
  (unquoteBytes (s.toList.map fun c => if c = '+' then ' ' else c)).bind
    fun bs => (utf8Decode bs).map fun cs => ⟨cs⟩

/-- `qs.split('&')` over characters. -/
def splitFields : List Char → List (List Char)
  | [] => [[]]
  | '&' :: rest => [] :: splitFields rest
  | c :: rest =>
      match splitFields rest with
      | [] => [[c]]
      | f :: fs => (c :: f) :: fs

/-- `name_value.split('=', 1)`: split at the first `=`, if any. -/
def splitFirstEq : List Char → Option (List Char × List Char)
  | [] => none
  | '=' :: rest => some ([], rest)
  | c :: rest => (splitFirstEq rest).map fun p => (c :: p.1, p.2)

/-- The field loop of `urllib.parse.parse_qsl` with its default arguments
(`keep_blank_values=False`, separator `&`): empty fields, fields without
`=`, and fields with an empty value are skipped. -/
def parseQslFields : List (List Char) → Option (List (String × String))
  | [] => some []
  | f :: rest =>
      let tail := parseQslFields rest
      if f = [] then tail
      else
        match splitFirstEq f with
        | none => tail
        | some (n, v) =>
            if v = [] then tail
            else
              (unquote_plus ⟨n⟩).bind fun name =>
                (unquote_plus ⟨v⟩).bind fun value =>
                  tail.map fun t => (name, value) :: t

/-- `urllib.parse.parse_qsl(qs)`. -/
def parseQsl (qs : String) : Option (List (String × String)) :=
  parseQslFields (splitFields qs.toList)

/-- C7: the authorization URL built with client_id `abc`, redirect URI
`https://example.com`, scope `a b` and state `s1` is the authorization
endpoint followed by a query string that decodes exactly to those four
parameters plus `response_type=code`; the construction is the
deterministic pure encoding `urlencode`, with no network call. -/
theorem c7_authorization_url_decodes :
    build_auth_url "abc" "https://example.com" "a b" "s1"
      = AUTH_URL ++ "?" ++ urlencode
          [("client_id", "abc"), ("response_type", "code"),
           ("redirect_uri", "https://example.com"), ("scope", "a b"),
           ("state", "s1")]
    ∧ parseQsl (urlencode
        [("client_id", "abc"), ("response_type", "code"),
         ("redirect_uri", "https://example.com"), ("scope", "a b"),
         ("state", "s1")])
      = some [("client_id", "abc"), ("response_type", "code"),
              ("redirect_uri", "https://example.com"), ("scope", "a b"),
              ("state", "s1")] :=
  ⟨rfl, by decide⟩

end WhoopSdk
